import Mathlib

/-!
Verification of the grid-geometry utilities of deck.gl's experimental
GPU grid layer (`gpu-grid-utils.js`).

The JavaScript source computes in IEEE floating point; we embed it in
exact arithmetic: rationals (`ℚ`) for the alignment / grid-placement
math (so every definition is executable and decidable), and reals
(`ℝ`) for the meter-to-degree conversions, which use `cos` and `π`.
`Math.floor` / `Math.ceil` become `Int.floor` / `Int.ceil`.  JavaScript
numbers that may be non-finite (the point scanner touches `NaN` and
`±Infinity`) are embedded by an explicit `JSNum` type with IEEE
comparison semantics.
-/

namespace GpuGridUtils

/-- `alignToCellBoundary(inValue, cellSize)` from `gpu-grid-utils.js`:
`sign = inValue < 0 ? -1 : 1`, `value = sign < 0 ? abs(inValue) + cellSize : abs(inValue)`,
`value = floor(value / cellSize) * cellSize`, returns `value * sign`. -/
def alignToCellBoundary (inValue cellSize : ℚ) : ℚ :=
  let sign : ℚ := if inValue < 0 then -1 else 1
  let value : ℚ := if sign < 0 then |inValue| + cellSize else |inValue|
  let value2 : ℚ := (⌊value / cellSize⌋ : ℚ) * cellSize
  value2 * sign

/-- On nonnegative inputs the alignment is plain floor-division. -/
lemma align_nonneg_eq (v c : ℚ) (hv : 0 ≤ v) :
    alignToCellBoundary v c = (⌊v / c⌋ : ℚ) * c := by
  simp only [alignToCellBoundary]
  rw [if_neg (not_lt.2 hv)]
  rw [if_neg (by norm_num : ¬ (1:ℚ) < 0), abs_of_nonneg hv, mul_one]

/-- On negative inputs the code shifts by one cell before flooring:
the result is `-((⌊-v / c⌋ + 1) * c)`. -/
lemma align_neg_eq (v c : ℚ) (hv : v < 0) (hc : 0 < c) :
    alignToCellBoundary v c = -(((⌊-v / c⌋ : ℚ) + 1) * c) := by
  simp only [alignToCellBoundary]
  rw [if_pos hv]
  rw [if_pos (by norm_num : (-1:ℚ) < 0), abs_of_neg hv]
  have hc0 : c ≠ 0 := ne_of_gt hc
  have h1 : (-v + c) / c = -v / c + 1 := by
    field_simp
  rw [h1]
  have h2 : ⌊-v / c + 1⌋ = ⌊-v / c⌋ + 1 := by
    exact_mod_cast Int.floor_add_one (-v / c)
  rw [h2]
  push_cast
  ring

/-- For `0 < c` and `0 ≤ v`, the aligned value is below the input. -/
lemma floor_mul_le (v c : ℚ) (hc : 0 < c) : (⌊v / c⌋ : ℚ) * c ≤ v := by
  have h := mul_le_mul_of_nonneg_right (Int.floor_le (v / c)) hc.le
  rwa [div_mul_cancel₀ v (ne_of_gt hc)] at h

/-- The input is strictly below the next cell boundary of its floor. -/
lemma lt_floor_add_one_mul (v c : ℚ) (hc : 0 < c) : v < ((⌊v / c⌋ : ℚ) + 1) * c := by
  have h : v / c < (⌊v / c⌋ : ℚ) + 1 := Int.lt_floor_add_one (v / c)
  exact (div_lt_iff₀ hc).mp h

/-- C1 (amended): for every `v` and every `0 < c`,
`alignToCellBoundary v c ≤ v ≤ alignToCellBoundary v c + c`, and the upper
bound is strict whenever `0 ≤ v`.  (The original strict upper bound fails
exactly at negative exact multiples of `c`, see the counterexample.) -/
theorem alignToCellBoundary_bounds (v c : ℚ) (hc : 0 < c) :
    alignToCellBoundary v c ≤ v ∧ v ≤ alignToCellBoundary v c + c ∧
      (0 ≤ v → v < alignToCellBoundary v c + c) := by
  rcases le_or_lt 0 v with hv | hv
  · rw [align_nonneg_eq v c hv]
    have h1 := floor_mul_le v c hc
    have h2 := lt_floor_add_one_mul v c hc
    have hexp : ((⌊v / c⌋ : ℚ) + 1) * c = (⌊v / c⌋ : ℚ) * c + c := by ring
    rw [hexp] at h2
    exact ⟨h1, le_of_lt h2, fun _ => h2⟩
  · rw [align_neg_eq v c hv hc]
    have h1 : (⌊-v / c⌋ : ℚ) * c ≤ -v := floor_mul_le (-v) c hc
    have h2 : -v < ((⌊-v / c⌋ : ℚ) + 1) * c := lt_floor_add_one_mul (-v) c hc
    have hexp : ((⌊-v / c⌋ : ℚ) + 1) * c = (⌊-v / c⌋ : ℚ) * c + c := by ring
    refine ⟨by linarith, by linarith, fun h0 => absurd h0 (not_le.2 hv)⟩

/-- C1 witness: the amended bounds at `v = 5/2`, `c = 1`. -/
theorem alignToCellBoundary_bounds_witness :
    (0:ℚ) < 1 ∧
      (alignToCellBoundary (5/2) 1 ≤ 5/2 ∧
        (5/2 : ℚ) ≤ alignToCellBoundary (5/2) 1 + 1 ∧
        ((0:ℚ) ≤ 5/2 → (5/2 : ℚ) < alignToCellBoundary (5/2) 1 + 1)) :=
  ⟨by norm_num, alignToCellBoundary_bounds (5/2) 1 (by norm_num)⟩

/-- C1 counterexample: at `v = -2`, `c = 1` the code returns `-3`, so the
claimed strict inequality `v < alignToCellBoundary v c + c` fails. -/
theorem alignToCellBoundary_strict_upper_fails :
    ¬ (alignToCellBoundary (-2) 1 ≤ -2 ∧ (-2:ℚ) < alignToCellBoundary (-2) 1 + 1) := by
  norm_num [alignToCellBoundary, abs_of_nonneg, abs_of_nonpos]

/-- C2 (amended): `alignToCellBoundary` is idempotent on nonnegative inputs
(for `0 < c`).  On negative inputs each application subtracts a further
cell, see the counterexample. -/
theorem alignToCellBoundary_idempotent_nonneg (v c : ℚ) (hc : 0 < c) (hv : 0 ≤ v) :
    alignToCellBoundary (alignToCellBoundary v c) c = alignToCellBoundary v c := by
  rw [align_nonneg_eq v c hv]
  have hfl : (0:ℚ) ≤ (⌊v / c⌋ : ℚ) * c :=
    mul_nonneg (by exact_mod_cast Int.floor_nonneg.2 (div_nonneg hv hc.le)) hc.le
  rw [align_nonneg_eq _ c hfl, mul_div_cancel_right₀ _ (ne_of_gt hc), Int.floor_intCast]

/-- C2 witness: idempotence at `v = 5/2`, `c = 1`. -/
theorem alignToCellBoundary_idempotent_nonneg_witness :
    (0:ℚ) < 1 ∧ (0:ℚ) ≤ 5/2 ∧
      alignToCellBoundary (alignToCellBoundary (5/2) 1) 1 = alignToCellBoundary (5/2) 1 :=
  ⟨by norm_num, by norm_num,
    alignToCellBoundary_idempotent_nonneg (5/2) 1 (by norm_num) (by norm_num)⟩

/-- C2 counterexample: `alignToCellBoundary (-1) 1 = -2` but aligning again
gives `-3`, so idempotence fails on negative inputs. -/
theorem alignToCellBoundary_idempotence_fails :
    alignToCellBoundary (alignToCellBoundary (-1) 1) 1 ≠ alignToCellBoundary (-1) 1 := by
  norm_num [alignToCellBoundary, abs_of_nonneg, abs_of_nonpos]

/-- C3: `alignToCellBoundary` is monotone in the value, for every `0 < c`. -/
theorem alignToCellBoundary_monotone (c v1 v2 : ℚ) (hc : 0 < c) (h : v1 ≤ v2) :
    alignToCellBoundary v1 c ≤ alignToCellBoundary v2 c := by
  rcases le_or_lt 0 v1 with h1 | h1
  · have h2 : (0:ℚ) ≤ v2 := le_trans h1 h
    rw [align_nonneg_eq v1 c h1, align_nonneg_eq v2 c h2]
    have hfl : ⌊v1 / c⌋ ≤ ⌊v2 / c⌋ :=
      Int.floor_le_floor ((div_le_div_iff_of_pos_right hc).mpr h)
    exact mul_le_mul_of_nonneg_right (by exact_mod_cast hfl) hc.le
  · rcases le_or_lt 0 v2 with h2 | h2
    · rw [align_neg_eq v1 c h1 hc, align_nonneg_eq v2 c h2]
      have hm : (0:ℤ) ≤ ⌊-v1 / c⌋ :=
        Int.floor_nonneg.2 (div_nonneg (by linarith) hc.le)
      have hl : (0:ℚ) ≤ ((⌊-v1 / c⌋ : ℚ) + 1) * c := by
        have : (0:ℚ) ≤ (⌊-v1 / c⌋ : ℚ) + 1 := by
          have : (0:ℚ) ≤ (⌊-v1 / c⌋ : ℚ) := by exact_mod_cast hm
          linarith
        exact mul_nonneg this hc.le
      have hr : (0:ℚ) ≤ (⌊v2 / c⌋ : ℚ) * c :=
        mul_nonneg (by exact_mod_cast Int.floor_nonneg.2 (div_nonneg h2 hc.le)) hc.le
      linarith
    · rw [align_neg_eq v1 c h1 hc, align_neg_eq v2 c h2 hc]
      have hfl : ⌊-v2 / c⌋ ≤ ⌊-v1 / c⌋ :=
        Int.floor_le_floor ((div_le_div_iff_of_pos_right hc).mpr (by linarith))
      have hcast : ((⌊-v2 / c⌋ : ℚ)) ≤ (⌊-v1 / c⌋ : ℚ) := by exact_mod_cast hfl
      have := mul_le_mul_of_nonneg_right (by linarith :
        ((⌊-v2 / c⌋ : ℚ) + 1) ≤ (⌊-v1 / c⌋ : ℚ) + 1) hc.le
      linarith

/-- C3 witness: monotonicity at `v1 = -1/2 ≤ v2 = 5/2`, `c = 1`. -/
theorem alignToCellBoundary_monotone_witness :
    (0:ℚ) < 1 ∧ (-1/2 : ℚ) ≤ 5/2 ∧
      alignToCellBoundary (-1/2) 1 ≤ alignToCellBoundary (5/2) 1 :=
  ⟨by norm_num, by norm_num,
    alignToCellBoundary_monotone 1 (-1/2) (5/2) (by norm_num) (by norm_num)⟩

/-- C10: for every `v` and every `0 < c` the aligned value is an exact
integer multiple of `c`. -/
theorem alignToCellBoundary_is_multiple (v c : ℚ) (hc : 0 < c) :
    ∃ k : ℤ, alignToCellBoundary v c = (k : ℚ) * c := by
  rcases le_or_lt 0 v with hv | hv
  · exact ⟨⌊v / c⌋, align_nonneg_eq v c hv⟩
  · refine ⟨-(⌊-v / c⌋ + 1), ?_⟩
    rw [align_neg_eq v c hv hc]
    push_cast
    ring

/-- C10 witness: `alignToCellBoundary 7 (3/2) = 6` is a multiple of `3/2`. -/
theorem alignToCellBoundary_is_multiple_witness :
    (0:ℚ) < 3/2 ∧ ∃ k : ℤ, alignToCellBoundary 7 (3/2) = (k : ℚ) * (3/2) :=
  ⟨by norm_num, alignToCellBoundary_is_multiple 7 (3/2) (by norm_num)⟩

/-- The bounding box part of the grid data handed between the pipeline
stages (`latMin/latMax/lngMin/lngMax` of `gridData`). -/
structure GridBounds (α : Type) where
  latMin : α
  latMax : α
  lngMin : α
  lngMax : α
deriving DecidableEq

/-- The angular cell size `{yOffset, xOffset}` returned by
`_calculateGridLatLonOffset` / `_getGridOffset`. -/
structure GridOffset (α : Type) where
  yOffset : α
  xOffset : α
deriving DecidableEq

/-- The parameter object assembled by `__getGPUAggregationParams`.  The
`gridTransformMatrix` (an external `Matrix4`) is represented by the
translation vector it is built from. -/
structure AggregationParams where
  cellSize : ℚ × ℚ
  gridOrigin : ℚ × ℚ
  width : ℚ
  height : ℚ
  translation : ℚ × ℚ
deriving DecidableEq

/-- `__getGPUAggregationParams(gridData, gridOffset)` from
`gpu-grid-utils.js` (grid-geometry fields; the point buffers are passed
through unchanged by the source and are not repeated here):
`originY = alignToCellBoundary(latMin + 90, yOffset) - 90`,
`originX = alignToCellBoundary(lngMin + 180, xOffset) - 180`,
`cellSize = [xOffset, yOffset]`, `gridOrigin = [originX, originY]`,
`width = lngMax - lngMin + xOffset`, `height = latMax - latMin + yOffset`,
transform translates by `[-originX, -originY, 0]`. -/
def _getGPUAggregationParams (gridData : GridBounds ℚ) (gridOffset : GridOffset ℚ) :
    AggregationParams :=
  let originY := alignToCellBoundary (gridData.latMin + 90) gridOffset.yOffset - 90
  let originX := alignToCellBoundary (gridData.lngMin + 180) gridOffset.xOffset - 180
  { cellSize := (gridOffset.xOffset, gridOffset.yOffset)
    gridOrigin := (originX, originY)
    width := gridData.lngMax - gridData.lngMin + gridOffset.xOffset
    height := gridData.latMax - gridData.latMin + gridOffset.yOffset
    translation := (-1 * originX, -1 * originY) }

/-- `gridSize` as computed in `pointToDensityGridData`:
`gridSizeX = ceil(opts.width / opts.cellSize[0])`,
`gridSizeY = ceil(opts.height / opts.cellSize[1])`, where `opts` is the
result of `__getGPUAggregationParams`. -/
def _pointToDensityGridSize (gridData : GridBounds ℚ) (gridOffset : GridOffset ℚ) :
    ℤ × ℤ :=
  let opts := _getGPUAggregationParams gridData gridOffset
  (⌈opts.width / opts.cellSize.1⌉, ⌈opts.height / opts.cellSize.2⌉)

/-- C4: for every bounding box and every offset pair with positive
components, the grid origin is obtained by shifting into positive space,
aligning, and shifting back:
`originY = alignToCellBoundary (latMin + 90) yOffset - 90` and
`originX = alignToCellBoundary (lngMin + 180) xOffset - 180`. -/
theorem gridOrigin_shift_align_shift (gridData : GridBounds ℚ) (gridOffset : GridOffset ℚ)
    (hx : 0 < gridOffset.xOffset) (hy : 0 < gridOffset.yOffset) :
    (_getGPUAggregationParams gridData gridOffset).gridOrigin.2 =
        alignToCellBoundary (gridData.latMin + 90) gridOffset.yOffset - 90 ∧
      (_getGPUAggregationParams gridData gridOffset).gridOrigin.1 =
        alignToCellBoundary (gridData.lngMin + 180) gridOffset.xOffset - 180 :=
  ⟨rfl, rfl⟩

/-- C4 witness: the origin formula at a concrete southern/western box
(`latMin = -45/2`, `lngMin = -301/2`) with cell offsets `(1/2, 1/2)`. -/
theorem gridOrigin_shift_align_shift_witness :
    (0:ℚ) < 1/2 ∧
      ((_getGPUAggregationParams ⟨-45/2, -20, -301/2, -150⟩ ⟨1/2, 1/2⟩).gridOrigin.2 =
          alignToCellBoundary (-45/2 + 90) (1/2) - 90 ∧
        (_getGPUAggregationParams ⟨-45/2, -20, -301/2, -150⟩ ⟨1/2, 1/2⟩).gridOrigin.1 =
          alignToCellBoundary (-301/2 + 180) (1/2) - 180) :=
  ⟨by norm_num,
    gridOrigin_shift_align_shift ⟨-45/2, -20, -301/2, -150⟩ ⟨1/2, 1/2⟩
      (by norm_num) (by norm_num)⟩

/-- C5: for every bounding box and positive offsets, the grid dimensions
carry one cell of padding (`width = lngMax - lngMin + xOffset`,
`height = latMax - latMin + yOffset`) and the cell counts are the
ceilings of the padded spans divided by the offsets. -/
theorem gridSize_padded_ceil (gridData : GridBounds ℚ) (gridOffset : GridOffset ℚ)
    (hx : 0 < gridOffset.xOffset) (hy : 0 < gridOffset.yOffset) :
    (_getGPUAggregationParams gridData gridOffset).width =
        gridData.lngMax - gridData.lngMin + gridOffset.xOffset ∧
      (_getGPUAggregationParams gridData gridOffset).height =
        gridData.latMax - gridData.latMin + gridOffset.yOffset ∧
      _pointToDensityGridSize gridData gridOffset =
        (⌈(_getGPUAggregationParams gridData gridOffset).width / gridOffset.xOffset⌉,
         ⌈(_getGPUAggregationParams gridData gridOffset).height / gridOffset.yOffset⌉) :=
  ⟨rfl, rfl, rfl⟩

/-- C5 witness: the padded dimensions and ceiling cell counts at a
concrete box and offsets. -/
theorem gridSize_padded_ceil_witness :
    (0:ℚ) < 1/2 ∧
      ((_getGPUAggregationParams ⟨-45/2, -20, -301/2, -150⟩ ⟨1/2, 1/2⟩).width =
          -150 - (-301/2) + 1/2 ∧
        (_getGPUAggregationParams ⟨-45/2, -20, -301/2, -150⟩ ⟨1/2, 1/2⟩).height =
          -20 - (-45/2) + 1/2 ∧
        _pointToDensityGridSize ⟨-45/2, -20, -301/2, -150⟩ ⟨1/2, 1/2⟩ =
          (⌈(_getGPUAggregationParams ⟨-45/2, -20, -301/2, -150⟩ ⟨1/2, 1/2⟩).width / (1/2)⌉,
           ⌈(_getGPUAggregationParams ⟨-45/2, -20, -301/2, -150⟩ ⟨1/2, 1/2⟩).height / (1/2)⌉)) :=
  ⟨by norm_num,
    gridSize_padded_ceil ⟨-45/2, -20, -301/2, -150⟩ ⟨1/2, 1/2⟩ (by norm_num) (by norm_num)⟩

/-- The Earth radius constant `R_EARTH = 6378000` (meters) of the source. -/
def R_EARTH : ℝ := 6378000

/-- `_calculateLatOffset(dy)`: `(dy / R_EARTH) * (180 / Math.PI)`. -/
noncomputable def _calculateLatOffset (dy : ℝ) : ℝ :=
  dy / R_EARTH * (180 / Real.pi)

/-- `_calculateLonOffset(lat, dx)`:
`((dx / R_EARTH) * (180 / Math.PI)) / Math.cos((lat * Math.PI) / 180)`. -/
noncomputable def _calculateLonOffset (lat dx : ℝ) : ℝ :=
  dx / R_EARTH * (180 / Real.pi) / Real.cos (lat * Real.pi / 180)

/-- `_calculateGridLatLonOffset(cellSize, latitude)`: packs the two
offsets into `{yOffset, xOffset}`. -/
noncomputable def _calculateGridLatLonOffset (cellSize latitude : ℝ) : GridOffset ℝ :=
  { yOffset := _calculateLatOffset cellSize
    xOffset := _calculateLonOffset latitude cellSize }

/-- `_getGridOffset(gridData, cellSize)`: evaluates the angular offsets
at the center latitude `(latMin + latMax) / 2` of the scanned bounds. -/
noncomputable def _getGridOffset (gridData : GridBounds ℝ) (cellSize : ℝ) : GridOffset ℝ :=
  _calculateGridLatLonOffset cellSize ((gridData.latMin + gridData.latMax) / 2)

/-- C6: for every `cellSizeMeters` and bounds, the angular cell size is
`yOffset = (cellSizeMeters / R_EARTH) * (180 / π)` (latitude-independent)
and `xOffset = yOffset / cos(centerLat in radians)` where `centerLat` is
the mean latitude `(latMin + latMax) / 2` of the scanned bounds. -/
theorem gridOffset_formulas (gridData : GridBounds ℝ) (cellSizeMeters : ℝ) :
    (_getGridOffset gridData cellSizeMeters).yOffset =
        cellSizeMeters / R_EARTH * (180 / Real.pi) ∧
      (_getGridOffset gridData cellSizeMeters).xOffset =
        (_getGridOffset gridData cellSizeMeters).yOffset /
          Real.cos ((gridData.latMin + gridData.latMax) / 2 * Real.pi / 180) :=
  ⟨rfl, rfl⟩

/-- C7: for a fixed positive `dx` (meters), the longitude offset at
latitude `0` equals the latitude offset, and its magnitude strictly
increases with `|latitude|` on `[0, 90)`. -/
theorem lonOffset_eq_at_zero_and_grows (dx l1 l2 : ℝ) (hdx : 0 < dx) :
    _calculateLonOffset 0 dx = _calculateLatOffset dx ∧
      (|l1| < |l2| → |l2| < 90 →
        |_calculateLonOffset l1 dx| < |_calculateLonOffset l2 dx|) := by
  constructor
  · simp [_calculateLonOffset, _calculateLatOffset]
  · intro h12 h2
    have hpi : (0:ℝ) < Real.pi := Real.pi_pos
    have hk : (0:ℝ) < dx / R_EARTH * (180 / Real.pi) := by
      have h1 : (0:ℝ) < dx / R_EARTH := div_pos hdx (by norm_num [R_EARTH])
      exact mul_pos h1 (by positivity)
    have habs1 : |l1 * Real.pi / 180| = |l1| * Real.pi / 180 := by
      rw [abs_div, abs_mul, abs_of_pos hpi,
        abs_of_pos (by norm_num : (0:ℝ) < 180)]
    have habs2 : |l2 * Real.pi / 180| = |l2| * Real.pi / 180 := by
      rw [abs_div, abs_mul, abs_of_pos hpi,
        abs_of_pos (by norm_num : (0:ℝ) < 180)]
    have hθ12 : |l1| * Real.pi / 180 < |l2| * Real.pi / 180 :=
      (div_lt_div_iff_of_pos_right (by norm_num : (0:ℝ) < 180)).mpr
        (mul_lt_mul_of_pos_right h12 hpi)
    have hθ2 : |l2| * Real.pi / 180 < Real.pi / 2 := by
      have h := (div_lt_div_iff_of_pos_right (by norm_num : (0:ℝ) < 180)).mpr
        (mul_lt_mul_of_pos_right h2 hpi)
      calc |l2| * Real.pi / 180 < 90 * Real.pi / 180 := h
        _ = Real.pi / 2 := by ring
    have hθ1nn : (0:ℝ) ≤ |l1| * Real.pi / 180 := by positivity
    have hθ2nn : (0:ℝ) ≤ |l2| * Real.pi / 180 := by positivity
    have hc2 : (0:ℝ) < Real.cos (|l2| * Real.pi / 180) :=
      Real.cos_pos_of_mem_Ioo ⟨by linarith, hθ2⟩
    have hc1 : (0:ℝ) < Real.cos (|l1| * Real.pi / 180) :=
      Real.cos_pos_of_mem_Ioo ⟨by linarith, by linarith⟩
    have hcos_lt : Real.cos (|l2| * Real.pi / 180) < Real.cos (|l1| * Real.pi / 180) :=
      Real.strictAntiOn_cos (Set.mem_Icc.2 ⟨hθ1nn, by linarith⟩)
        (Set.mem_Icc.2 ⟨hθ2nn, by linarith⟩) hθ12
    have hval1 : _calculateLonOffset l1 dx =
        dx / R_EARTH * (180 / Real.pi) / Real.cos (|l1| * Real.pi / 180) := by
      unfold _calculateLonOffset
      rw [← habs1, Real.cos_abs]
    have hval2 : _calculateLonOffset l2 dx =
        dx / R_EARTH * (180 / Real.pi) / Real.cos (|l2| * Real.pi / 180) := by
      unfold _calculateLonOffset
      rw [← habs2, Real.cos_abs]
    rw [hval1, hval2, abs_of_pos (div_pos hk hc1), abs_of_pos (div_pos hk hc2)]
    exact div_lt_div_of_pos_left hk hc2 hcos_lt

/-- C7 witness: at `dx = 1000` meters the longitude offset at latitude 0
equals the latitude offset, and its magnitude at latitude 60 exceeds the
one at latitude 0. -/
theorem lonOffset_eq_at_zero_and_grows_witness :
    (0:ℝ) < 1000 ∧ |(0:ℝ)| < |(60:ℝ)| ∧ |(60:ℝ)| < 90 ∧
      _calculateLonOffset 0 1000 = _calculateLatOffset 1000 ∧
      |_calculateLonOffset 0 1000| < |_calculateLonOffset 60 1000| :=
  ⟨by norm_num, by norm_num, by norm_num,
    (lonOffset_eq_at_zero_and_grows 1000 0 60 (by norm_num)).1,
    (lonOffset_eq_at_zero_and_grows 1000 0 60 (by norm_num)).2
      (by norm_num) (by norm_num)⟩

/-- A JavaScript number as seen by the point scanner: a finite value
(embedded exactly) or one of the non-finite values `NaN`, `Infinity`,
`-Infinity`. -/
inductive JSNum where
  | fin (q : ℚ)
  | posInf
  | negInf
  | nan
deriving DecidableEq

/-- `Number.isFinite`. -/
def JSNum.isFinite : JSNum → Bool
  | .fin _ => true
  | _ => false

/-- IEEE `<` on JavaScript numbers: any comparison involving `NaN` is
false, `-Infinity` is below everything else, `Infinity` above. -/
def JSNum.lt : JSNum → JSNum → Bool
  | .fin a, .fin b => decide (a < b)
  | .fin _, .posInf => true
  | .negInf, .fin _ => true
  | .negInf, .posInf => true
  | _, _ => false

/-- IEEE `>`: `a > b` holds exactly when `b < a`. -/
def JSNum.gt (a b : JSNum) : Bool := JSNum.lt b a

/-- The record built by `_parseData`: flat position buffers, the
low-precision buffer, unit weights, and the bounding box. -/
structure ParsedData where
  positions : List JSNum
  positions64xyLow : List JSNum
  weights : List JSNum
  latMin : JSNum
  latMax : JSNum
  lngMin : JSNum
  lngMax : JSNum
deriving DecidableEq

/-- The state of `_parseData` before its loop: empty buffers and
sentinel bounds `latMin = lngMin = Infinity`, `latMax = lngMax = -Infinity`. -/
def parseInit : ParsedData :=
  { positions := []
    positions64xyLow := []
    weights := []
    latMin := JSNum.posInf
    latMax := JSNum.negInf
    lngMin := JSNum.posInf
    lngMax := JSNum.negInf }

/-- One iteration of the `_parseData` loop on the accessor value
`(pLng, pLat)` of one point: push the coordinates, their low parts and a
unit weight, and fold the point into the bounds only when both
coordinates are finite.  `fp64LowPart` is the external luma.gl split
utility, taken as a parameter. -/
def _parseStep (fp64LowPart : JSNum → JSNum) (acc : ParsedData) (pos : JSNum × JSNum) :
    ParsedData :=
  let pLng := pos.1
  let pLat := pos.2
  let finite := pLat.isFinite && pLng.isFinite
  { positions := acc.positions ++ [pLng, pLat]
    positions64xyLow := acc.positions64xyLow ++ [fp64LowPart pLng, fp64LowPart pLat]
    weights := acc.weights ++ [JSNum.fin 1]
    latMin := if finite then (if JSNum.lt pLat acc.latMin then pLat else acc.latMin)
      else acc.latMin
    latMax := if finite then (if JSNum.gt pLat acc.latMax then pLat else acc.latMax)
      else acc.latMax
    lngMin := if finite then (if JSNum.lt pLng acc.lngMin then pLng else acc.lngMin)
      else acc.lngMin
    lngMax := if finite then (if JSNum.gt pLng acc.lngMax then pLng else acc.lngMax)
      else acc.lngMax }

/-- `_parseData(data, getPosition)` from `gpu-grid-utils.js`: a single
left-to-right pass over the points. -/
def _parseData {P : Type} (fp64LowPart : JSNum → JSNum) (data : List P)
    (getPosition : P → JSNum × JSNum) : ParsedData :=
  data.foldl (fun acc d => _parseStep fp64LowPart acc (getPosition d)) parseInit

/-- The bounding-box part of a `ParsedData`. -/
def boundsOf (r : ParsedData) : JSNum × JSNum × JSNum × JSNum :=
  (r.latMin, r.latMax, r.lngMin, r.lngMax)

/-- The loop of `_parseData` appends, for every point, exactly its two
coordinates, their two low parts, and one unit weight. -/
lemma parse_foldl_buffers {P : Type} (low : JSNum → JSNum) (gp : P → JSNum × JSNum)
    (data : List P) : ∀ acc : ParsedData,
    (data.foldl (fun a d => _parseStep low a (gp d)) acc).positions
        = acc.positions ++ data.flatMap (fun d => [(gp d).1, (gp d).2]) ∧
      (data.foldl (fun a d => _parseStep low a (gp d)) acc).positions64xyLow
        = acc.positions64xyLow ++ data.flatMap (fun d => [low (gp d).1, low (gp d).2]) ∧
      (data.foldl (fun a d => _parseStep low a (gp d)) acc).weights
        = acc.weights ++ data.map (fun _ => JSNum.fin 1) := by
  induction data with
  | nil => intro acc; simp
  | cons d rest ih =>
    intro acc
    simp only [List.foldl_cons]
    obtain ⟨h1, h2, h3⟩ := ih (_parseStep low acc (gp d))
    refine ⟨?_, ?_, ?_⟩
    · rw [h1]
      simp [_parseStep]
    · rw [h2]
      simp [_parseStep]
    · rw [h3]
      simp [_parseStep]

/-- The loop of `_parseData` grows the buffers by `2`, `2` and `1` slots
per point. -/
lemma parse_foldl_lengths {P : Type} (low : JSNum → JSNum) (gp : P → JSNum × JSNum)
    (data : List P) : ∀ acc : ParsedData,
    (data.foldl (fun a d => _parseStep low a (gp d)) acc).positions.length
        = acc.positions.length + 2 * data.length ∧
      (data.foldl (fun a d => _parseStep low a (gp d)) acc).positions64xyLow.length
        = acc.positions64xyLow.length + 2 * data.length ∧
      (data.foldl (fun a d => _parseStep low a (gp d)) acc).weights.length
        = acc.weights.length + data.length := by
  induction data with
  | nil => intro acc; simp
  | cons d rest ih =>
    intro acc
    simp only [List.foldl_cons]
    obtain ⟨h1, h2, h3⟩ := ih (_parseStep low acc (gp d))
    refine ⟨?_, ?_, ?_⟩
    · rw [h1]
      simp only [_parseStep, List.length_append, List.length_cons, List.length_nil]
      omega
    · rw [h2]
      simp only [_parseStep, List.length_append, List.length_cons, List.length_nil]
      omega
    · rw [h3]
      simp only [_parseStep, List.length_append, List.length_cons, List.length_nil]
      omega

/-- C8: the scanner unconditionally appends every point's longitude and
latitude, their low parts, and a unit weight, so the buffers have
lengths `2N`, `2N` and `N` and every weight is `1.0`. -/
theorem parseData_buffers {P : Type} (low : JSNum → JSNum) (data : List P)
    (getPosition : P → JSNum × JSNum) :
    (_parseData low data getPosition).positions
        = data.flatMap (fun d => [(getPosition d).1, (getPosition d).2]) ∧
      (_parseData low data getPosition).positions.length = 2 * data.length ∧
      (_parseData low data getPosition).positions64xyLow.length = 2 * data.length ∧
      (_parseData low data getPosition).weights.length = data.length ∧
      ∀ w ∈ (_parseData low data getPosition).weights, w = JSNum.fin 1 := by
  obtain ⟨hb1, _, hb3⟩ := parse_foldl_buffers low getPosition data parseInit
  obtain ⟨hl1, hl2, hl3⟩ := parse_foldl_lengths low getPosition data parseInit
  unfold _parseData
  refine ⟨?_, ?_, ?_, ?_, ?_⟩
  · rw [hb1]
    simp [parseInit]
  · rw [hl1]
    simp [parseInit]
  · rw [hl2]
    simp [parseInit]
  · rw [hl3]
    simp [parseInit]
  · rw [hb3]
    intro w hw
    simp only [parseInit, List.nil_append, List.mem_map] at hw
    obtain ⟨a, _, ha⟩ := hw
    exact ha.symm

/-- A point with a non-finite coordinate leaves the bounds unchanged. -/
lemma parseStep_bounds_nonfinite (low : JSNum → JSNum) (acc : ParsedData)
    (pos : JSNum × JSNum) (h : (pos.2.isFinite && pos.1.isFinite) = false) :
    boundsOf (_parseStep low acc pos) = boundsOf acc := by
  simp [_parseStep, boundsOf, h]

/-- A run over only non-fully-finite points leaves the bounds unchanged. -/
lemma parse_foldl_bounds_nonfinite {P : Type} (low : JSNum → JSNum)
    (gp : P → JSNum × JSNum) (data : List P) : ∀ acc : ParsedData,
    (∀ d ∈ data, (((gp d).2).isFinite && ((gp d).1).isFinite) = false) →
    boundsOf (data.foldl (fun a d => _parseStep low a (gp d)) acc) = boundsOf acc := by
  induction data with
  | nil => intro acc _; rfl
  | cons d rest ih =>
    intro acc h
    rw [List.foldl_cons, ih _ (fun x hx => h x (List.mem_cons_of_mem d hx))]
    exact parseStep_bounds_nonfinite low acc (gp d) (h d (List.mem_cons_self d rest))

/-- C9: the bounds are only updated by fully-finite points: appending a
point with a non-finite coordinate leaves them unchanged, and an input
with no fully-finite point (in particular an empty input) yields the
sentinel bounds `latMin = lngMin = Infinity`, `latMax = lngMax = -Infinity`
(the scanner is total: no error is raised). -/
theorem parseData_bounds_finite_only {P : Type} (low : JSNum → JSNum)
    (getPosition : P → JSNum × JSNum) (data : List P) (p : P) :
    (((((getPosition p).2).isFinite && ((getPosition p).1).isFinite) = false) →
        boundsOf (_parseData low (data ++ [p]) getPosition) =
          boundsOf (_parseData low data getPosition)) ∧
      ((∀ d ∈ data, (((getPosition d).2).isFinite && ((getPosition d).1).isFinite) = false) →
        boundsOf (_parseData low data getPosition) =
          (JSNum.posInf, JSNum.negInf, JSNum.posInf, JSNum.negInf)) := by
  constructor
  · intro h
    unfold _parseData
    rw [List.foldl_append]
    simp only [List.foldl_cons, List.foldl_nil]
    exact parseStep_bounds_nonfinite low _ (getPosition p) h
  · intro h
    unfold _parseData
    rw [parse_foldl_bounds_nonfinite low getPosition data parseInit h]
    rfl

/-- C9 witness: a single point `(lng, lat) = (3, NaN)` leaves the bounds
at their sentinels, as does the empty input. -/
theorem parseData_bounds_finite_only_witness :
    ((JSNum.nan.isFinite && (JSNum.fin 3).isFinite) = false ∧
        boundsOf (_parseData (fun _ => JSNum.fin 0)
            ([] ++ [(JSNum.fin 3, JSNum.nan)]) (fun x => x)) =
          boundsOf (_parseData (fun _ => JSNum.fin 0)
            ([] : List (JSNum × JSNum)) (fun x => x))) ∧
      boundsOf (_parseData (fun _ => JSNum.fin 0)
          ([] : List (JSNum × JSNum)) (fun x => x)) =
        (JSNum.posInf, JSNum.negInf, JSNum.posInf, JSNum.negInf) := by
  refine ⟨⟨rfl, ?_⟩, ?_⟩
  · exact (parseData_bounds_finite_only (fun _ => JSNum.fin 0) (fun x => x)
      [] (JSNum.fin 3, JSNum.nan)).1 rfl
  · exact (parseData_bounds_finite_only (fun _ => JSNum.fin 0) (fun x => x)
      ([] : List (JSNum × JSNum)) (JSNum.fin 3, JSNum.nan)).2 (by simp)

end GpuGridUtils
